import Mathlib

/-!
Verification of the llm-ux backend's branching-conversation data model.

This file gives a shallow embedding of the persistent data model
(conversations, messages, leaves, message versions) and of the operations
the backend performs on it:

* `ConversationRepository.get_messages` (the branch resolver),
* `LeafRepository.create`, `LeafRepository.delete`, `LeafRepository.set_active`,
  `LeafRepository.get_active`, `LeafRepository.get_message_versions`,
* the HTTP-level handlers `navigate_version` and `delete_leaf`,
* the WebSocket `ConnectionManager` (connect / disconnect / broadcast /
  send_to_all bookkeeping).

Database tables are modelled as lists of rows kept in insertion order
(`created_at` ordering coincides with insertion order, since every insert
happens strictly later than the previous one).  Python dictionaries that map
message ids to version indices are modelled as association lists.  SQL
`scalar_one_or_none` queries are modelled with `List.find?`; in every state
reachable by the operations the matching row is unique, so `find?` returns
exactly the row the query would.  Python string truthiness (`if leaf_id:`)
is modelled explicitly: `None` and the empty string are falsy.
-/

namespace LlmUx

/-- A row of the `messages` table (database.py, `MessageDB`).  `created_at`
is represented by the row's position in `DBState.messages`. -/
structure MessageRow where
  id : String
  conversation_id : String
  author_id : String
  content : String
  created_in_leaf_id : Option String
deriving DecidableEq

/-- A row of the `leaves` table (database.py, `LeafDB`).  The JSON column
`message_versions` (message_id -> version index) is an association list;
the string column `is_active` ("true"/"false") is a `Bool`. -/
structure LeafRow where
  id : String
  conversation_id : String
  name : String
  branch_point_message_id : Option String
  message_versions : List (String × Nat)
  is_active : Bool
deriving DecidableEq

/-- A row of the `message_versions` table (database.py, `MessageVersionDB`). -/
structure VersionRow where
  message_id : String
  content : String
  author_id : String
  leaf_id : String
  version_number : Nat
deriving DecidableEq

/-- A row of the `conversations` table (database.py, `ConversationDB`);
only the fields the verified operations consult. -/
structure ConversationRow where
  id : String
  title : String
deriving DecidableEq

/-- The database: one list of rows per table, each in insertion order. -/
structure DBState where
  conversations : List ConversationRow
  messages : List MessageRow
  leaves : List LeafRow
  versions : List VersionRow
deriving DecidableEq

/-- Python truthiness of an optional string: `None` and `""` are falsy. -/
def truthyOpt : Option String → Bool
  | none => false
  | some s => !(s == "")

/-- Lookup in a Python dict modelled as an association list. -/
def assocLookup : List (String × Nat) → String → Option Nat
  | [], _ => none
  | (k, v) :: rest, key => if k == key then some v else assocLookup rest key

/-- All messages of a conversation in `created_at` order
(`select(MessageDB).where(conversation_id ==).order_by(created_at)`). -/
def convMessages (s : DBState) (conversation_id : String) : List MessageRow :=
  s.messages.filter (fun m => m.conversation_id == conversation_id)

/-- The `MessageVersionDB` row with a given message id and version number
(`scalar_one_or_none`). -/
def lookupVersion (s : DBState) (message_id : String) (vnum : Nat) : Option VersionRow :=
  s.versions.find? (fun v => v.message_id == message_id && v.version_number == vnum)

/-- Content substitution in `get_messages`: if the leaf's `message_versions`
dict is non-empty and has an entry for this message, and the referenced
version row exists, its content replaces the canonical content. -/
def overrideContent (s : DBState) (db_leaf : LeafRow) (m : MessageRow) : String :=
  if db_leaf.message_versions.isEmpty then m.content
  else
    match assocLookup db_leaf.message_versions m.id with
    | none => m.content
    | some vidx =>
      match lookupVersion s m.id vidx with
      | none => m.content
      | some v => v.content

/-- The dict `get_messages` builds per message.  `leaf_id` is `some` exactly
when the leaf-scoped branch of the code runs (the other branch builds dicts
without a `leaf_id` key).  The `created_at` key carries no information beyond
the list order and is omitted. -/
structure MsgDict where
  id : String
  conversation_id : String
  author_id : String
  content : String
  leaf_id : Option String
deriving DecidableEq

/-- The dicts built on the no-leaf path of `get_messages`. -/
def canonicalDicts (ms : List MessageRow) : List MsgDict :=
  ms.map (fun m =>
    { id := m.id, conversation_id := m.conversation_id, author_id := m.author_id,
      content := m.content, leaf_id := none })

/-- The dict built for one included message on the leaf path of `get_messages`. -/
def mkLeafDict (s : DBState) (db_leaf : LeafRow) (lid : String) (m : MessageRow) : MsgDict :=
  { id := m.id, conversation_id := m.conversation_id, author_id := m.author_id,
    content := overrideContent s db_leaf m, leaf_id := some lid }

/-- The `continue` condition of the message loop in `get_messages`: after the
branch point only messages created in the requested leaf survive; with no
branch point, messages created in a different leaf are dropped. -/
def skipMsg (lid : String) (bpi : Option Nat) (i : Nat) (m : MessageRow) : Bool :=
  match bpi with
  | some b => if b < i then !(m.created_in_leaf_id == some lid) else false
  | none => truthyOpt m.created_in_leaf_id && !(m.created_in_leaf_id == some lid)

/-- The `for i, db_msg in enumerate(db_messages)` loop of `get_messages`. -/
def gmLoop (s : DBState) (db_leaf : LeafRow) (lid : String) (bpi : Option Nat) :
    Nat → List MessageRow → List MsgDict
  | _, [] => []
  | i, m :: ms =>
    if skipMsg lid bpi i m then gmLoop s db_leaf lid bpi (i + 1) ms
    else mkLeafDict s db_leaf lid m :: gmLoop s db_leaf lid bpi (i + 1) ms

/-- The branch-point search loop of `get_messages`: first index whose message
id equals the leaf's `branch_point_message_id`, else `None`. -/
def findBranchIndex (bp : String) : Nat → List MessageRow → Option Nat
  | _, [] => none
  | i, m :: ms => if m.id == bp then some i else findBranchIndex bp (i + 1) ms

/-- `ConversationRepository.get_messages` (repository.py lines 273-351).
With a truthy `leaf_id` that names an existing leaf, it filters by branch
point and applies version overrides; with a truthy `leaf_id` naming no leaf
the accumulator list is never filled and the result is `[]`; with a falsy
`leaf_id` it returns the canonical sequence. -/
def get_messages (s : DBState) (conversation_id : String) (leaf_id : Option String) :
    List MsgDict :=
  let db_messages := convMessages s conversation_id
  match leaf_id with
  | none => canonicalDicts db_messages
  | some lid =>
    if lid == "" then canonicalDicts db_messages
    else
      match s.leaves.find? (fun l => l.id == lid) with
      | none => []
      | some db_leaf =>
        let bpi : Option Nat :=
          match db_leaf.branch_point_message_id with
          | none => none
          | some bp => if bp == "" then none else findBranchIndex bp 0 db_messages
        gmLoop s db_leaf lid bpi 0 db_messages

/-- `LeafRepository.create` (repository.py lines 360-411).  The generated
uuid is passed in as `new_leaf_id`.  A copy-on-write version is seeded only
when both `branch_from_message_id` and `new_content` are truthy and the
branch-point message exists; its `version_number` is the count of stored
versions for that message. -/
def leaf_create (s : DBState) (conversation_id name : String)
    (branch_from_message_id new_content : Option String) (new_leaf_id : String) :
    DBState × LeafRow :=
  let base : LeafRow :=
    { id := new_leaf_id, conversation_id := conversation_id, name := name,
      branch_point_message_id := branch_from_message_id,
      message_versions := [], is_active := false }
  match branch_from_message_id, new_content with
  | some bmid, some nc =>
    if bmid == "" || nc == "" then
      ({ s with leaves := s.leaves ++ [base] }, base)
    else
      match s.messages.find? (fun m => m.id == bmid) with
      | none => ({ s with leaves := s.leaves ++ [base] }, base)
      | some db_message =>
        let vn := (s.versions.filter (fun v => v.message_id == bmid)).length
        let newv : VersionRow :=
          { message_id := bmid, content := nc, author_id := db_message.author_id,
            leaf_id := new_leaf_id, version_number := vn }
        let leaf := { base with message_versions := [(bmid, vn)] }
        ({ s with leaves := s.leaves ++ [leaf], versions := s.versions ++ [newv] }, leaf)
  | _, _ => ({ s with leaves := s.leaves ++ [base] }, base)

/-- `LeafRepository.delete` (repository.py lines 455-473).  The statement
meant to delete the leaf's versions is a bare `select` whose result is
discarded, so only the leaf row itself is deleted; no foreign-key cascade
from leaves to message_versions is configured. -/
def leaf_delete (s : DBState) (leaf_id : String) : DBState × Bool :=
  match s.leaves.find? (fun l => l.id == leaf_id) with
  | none => (s, false)
  | some _ =>
    ({ s with leaves := s.leaves.eraseP (fun l => l.id == leaf_id) }, true)

/-- `LeafRepository.set_active` (repository.py lines 475-494).  When the
target leaf is found among the conversation's leaves, exactly it becomes
active and all the conversation's other leaves become inactive; when it is
not found, nothing is committed and the state is unchanged. -/
def set_active (s : DBState) (conversation_id leaf_id : String) : DBState × Bool :=
  let found := s.leaves.any (fun l => l.conversation_id == conversation_id && l.id == leaf_id)
  if found then
    ({ s with leaves := s.leaves.map (fun l =>
        if l.conversation_id == conversation_id then
          { l with is_active := l.id == leaf_id }
        else l) }, true)
  else (s, false)

/-- `LeafRepository.get_active` (repository.py lines 433-453). -/
def get_active (s : DBState) (conversation_id : String) : Option LeafRow :=
  s.leaves.find? (fun l => l.conversation_id == conversation_id && l.is_active)

/-- `LeafRepository.get_all` (repository.py lines 413-431), ordered by
creation time. -/
def leafGetAll (s : DBState) (conversation_id : String) : List LeafRow :=
  s.leaves.filter (fun l => l.conversation_id == conversation_id)

/-- One entry of the merged version list `LeafRepository.get_message_versions`
returns: the synthetic original (index 0, `leaf_id` the literal string
"main", no author) followed by the stored versions.  `author_id` is `some`
exactly for stored versions (the synthetic dict has no such key). -/
structure VersionDict where
  content : String
  version_number : Nat
  leaf_id : String
  author_id : Option String
deriving DecidableEq

/-- Insertion step of the `ORDER BY version_number` model. -/
def insertByVN (v : VersionRow) : List VersionRow → List VersionRow
  | [] => [v]
  | w :: ws =>
    if v.version_number ≤ w.version_number then v :: w :: ws
    else w :: insertByVN v ws

/-- `ORDER BY version_number`, modelled as an insertion sort. -/
def sortByVN : List VersionRow → List VersionRow
  | [] => []
  | v :: vs => insertByVN v (sortByVN vs)

/-- The stored versions of a message, ordered by version number. -/
def versionsFor (s : DBState) (message_id : String) : List VersionRow :=
  sortByVN (s.versions.filter (fun v => v.message_id == message_id))

/-- `LeafRepository.get_message_versions` (repository.py lines 496-535):
empty when the message is missing, otherwise the synthetic original at
index 0 followed by the stored versions with version numbers offset by 1. -/
def get_message_versions (s : DBState) (message_id : String) : List VersionDict :=
  match s.messages.find? (fun m => m.id == message_id) with
  | none => []
  | some db_message =>
    { content := db_message.content, version_number := 0,
      leaf_id := "main", author_id := none }
      :: (versionsFor s message_id).map (fun v =>
          { content := v.content, version_number := v.version_number + 1,
            leaf_id := v.leaf_id, author_id := some v.author_id })

/-- The error taxonomy surfaced by the HTTP handlers (`HTTPException` with
status 404, 400, or an unhandled exception → 500). -/
inductive ApiError where
  | notFound (detail : String)
  | badRequest (detail : String)
  | internal (detail : String)
deriving DecidableEq

instance exceptDecEq {α β : Type} [DecidableEq α] [DecidableEq β] :
    DecidableEq (Except α β) := fun x y =>
  match x, y with
  | .ok a, .ok b =>
    if h : a = b then isTrue (by rw [h]) else isFalse (by simp [h])
  | .error a, .error b =>
    if h : a = b then isTrue (by rw [h]) else isFalse (by simp [h])
  | .ok _, .error _ => isFalse (by simp)
  | .error _, .ok _ => isFalse (by simp)

/-- `ConversationRepository.get` returns a conversation exactly when its row
exists; the handlers only test the result against `None`. -/
def hasConversation (s : DBState) (conversation_id : String) : Bool :=
  s.conversations.any (fun c => c.id == conversation_id)

/-- The `message_found` loop of the handlers: some message of the
conversation has the requested id. -/
def messageInConversation (s : DBState) (conversation_id message_id : String) : Bool :=
  s.messages.any (fun m => m.conversation_id == conversation_id && m.id == message_id)

/-- The `current_version` loop of the `get_message_versions` handler:
index of the first version whose `leaf_id` equals the active leaf's id,
defaulting to 0. -/
def findCurrentVersion (active_leaf_id : String) : Nat → List VersionDict → Nat
  | _, [] => 0
  | i, v :: vs =>
    if v.leaf_id == active_leaf_id then i
    else findCurrentVersion active_leaf_id (i + 1) vs

/-- The `get_message_versions` handler (main.py lines 492-531). -/
def ep_get_message_versions (s : DBState) (conversation_id message_id : String) :
    Except ApiError (List VersionDict × Nat) :=
  if !hasConversation s conversation_id then .error (.notFound "Conversation not found")
  else if !messageInConversation s conversation_id message_id then
    .error (.notFound "Message not found")
  else
    let all_versions := get_message_versions s message_id
    let active_leaf_id :=
      match get_active s conversation_id with
      | some l => l.id
      | none => "main"
    .ok (all_versions, findCurrentVersion active_leaf_id 0 all_versions)

/-- Python list subscription `l[i]` for a possibly negative index:
a negative `i` addresses position `len + i`; out of range raises. -/
def pyIndex (l : List VersionDict) (i : Int) : Option VersionDict :=
  if 0 ≤ i then l[i.toNat]?
  else if 0 ≤ (l.length : Int) + i then l[((l.length : Int) + i).toNat]?
  else none

/-- The `navigate_version` handler (main.py lines 533-558).  Only
`version_index >= len(all_versions)` is rejected; the subscription then uses
Python indexing, and a truthy `leaf_id` on the selected version triggers
`set_active`.  Returns the new state, the echoed index, and the content. -/
def ep_navigate_version (s : DBState) (conversation_id message_id : String)
    (version_index : Int) : Except ApiError (DBState × Int × String) :=
  match ep_get_message_versions s conversation_id message_id with
  | .error e => .error e
  | .ok (all_versions, _) =>
    if (all_versions.length : Int) ≤ version_index then
      .error (.badRequest "Version index out of range")
    else
      match pyIndex all_versions version_index with
      | none => .error (.internal "list index out of range")
      | some selected =>
        let s1 :=
          if selected.leaf_id == "" then s
          else (set_active s conversation_id selected.leaf_id).1
        .ok (s1, version_index, selected.content)

/-- The database state after a `navigate_version` call: unchanged when the
handler raises. -/
def navigateState (s : DBState) (conversation_id message_id : String)
    (version_index : Int) : DBState :=
  match ep_navigate_version s conversation_id message_id version_index with
  | .ok (s1, _, _) => s1
  | .error _ => s

/-- The `delete_leaf` handler (main.py lines 389-426): 404 for a missing
conversation or leaf, 400 for the leaf named "main"; otherwise active
status is reassigned to "main" when needed and the leaf row is deleted. -/
def ep_delete_leaf (s : DBState) (conversation_id leaf_id : String) :
    Except ApiError (DBState × String) :=
  if !hasConversation s conversation_id then .error (.notFound "Conversation not found")
  else
    match (leafGetAll s conversation_id).find? (fun l => l.id == leaf_id) with
    | none => .error (.notFound "Leaf not found")
    | some target_leaf =>
      if target_leaf.name == "main" then .error (.badRequest "Cannot delete main branch")
      else
        let s1 :=
          match get_active s conversation_id with
          | some active_leaf =>
            if active_leaf.id == leaf_id then
              match (leafGetAll s conversation_id).find? (fun l => l.name == "main") with
              | some main_leaf => (set_active s conversation_id main_leaf.id).1
              | none => s
            else s
          | none => s
        match leaf_delete s1 leaf_id with
        | (s2, true) => .ok (s2, "Branch deleted successfully")
        | (_, false) => .error (.internal "Failed to delete leaf")

/-- The database state after a `delete_leaf` call: unchanged when the
handler raises. -/
def deleteLeafState (s : DBState) (conversation_id leaf_id : String) : DBState :=
  match ep_delete_leaf s conversation_id leaf_id with
  | .ok (s1, _) => s1
  | .error _ => s

namespace CM

/-!
The WebSocket `ConnectionManager` (managers/connection.py lines 6-74 and the
identical inner class of main.py lines 76-142).  WebSocket objects are
modelled by `Nat` identifiers; the two Python dicts keyed by conversation id
are modelled as total functions into `Option`, where `none` means the key is
absent.  `send_text` failures are external nondeterminism: each broadcast
carries the set of connections whose send raises, and those are dropped via
`disconnect` during the same pass, exactly as in the code.  `user_count`
values are `Int`, as Python integers can in principle be decremented below
zero.  A `disconnect` whose websocket is not registered raises `ValueError`
in Python before any mutation, so the state it leaves behind is unchanged;
the model returns the state unchanged in that case.
-/

/-- The two conversation-keyed dicts of `ConnectionManager`
(`editing_sessions` is untouched by the four modelled operations). -/
structure ManagerState where
  active_connections : String → Option (List Nat)
  user_count : String → Option Int

/-- Pointwise update of a dict: `m[k] = v` (or `del m[k]` with `none`). -/
def updateMap {β : Type} (m : String → Option β) (k : String) (v : Option β) :
    String → Option β :=
  fun k2 => if k2 == k then v else m k2

/-- `ConnectionManager.connect`: create the two entries if absent, append
the websocket, increment the count. -/
def connect (ws : Nat) (cid : String) (s : ManagerState) : ManagerState :=
  match s.active_connections cid with
  | none =>
    { active_connections := updateMap s.active_connections cid (some [ws]),
      user_count := updateMap s.user_count cid (some 1) }
  | some conns =>
    { active_connections := updateMap s.active_connections cid (some (conns ++ [ws])),
      user_count := updateMap s.user_count cid (some ((s.user_count cid).getD 0 + 1)) }

/-- `ConnectionManager.disconnect`: remove the websocket (first occurrence),
decrement the count, and drop both entries when the list empties. -/
def disconnect (ws : Nat) (cid : String) (s : ManagerState) : ManagerState :=
  match s.active_connections cid with
  | none => s
  | some conns =>
    if conns.contains ws then
      let conns1 := conns.erase ws
      if conns1.isEmpty then
        { active_connections := updateMap s.active_connections cid none,
          user_count := updateMap s.user_count cid none }
      else
        { active_connections := updateMap s.active_connections cid (some conns1),
          user_count := updateMap s.user_count cid (some ((s.user_count cid).getD 0 - 1)) }
    else s

/-- `ConnectionManager.broadcast`: sends to every connection other than
`exclude`; the connections whose send raised are collected and disconnected
after the loop. -/
def broadcast (cid : String) (exclude : Option Nat) (failing : List Nat)
    (s : ManagerState) : ManagerState :=
  match s.active_connections cid with
  | none => s
  | some conns =>
    let to_remove := conns.filter (fun c => !(some c == exclude) && failing.contains c)
    to_remove.foldl (fun st c => disconnect c cid st) s

/-- `ConnectionManager.send_to_all`: like `broadcast` without an exclusion. -/
def send_to_all (cid : String) (failing : List Nat) (s : ManagerState) : ManagerState :=
  match s.active_connections cid with
  | none => s
  | some conns =>
    let to_remove := conns.filter (fun c => failing.contains c)
    to_remove.foldl (fun st c => disconnect c cid st) s

/-- `ConnectionManager.get_user_count`: `self.user_count.get(cid, 0)`. -/
def get_user_count (s : ManagerState) (cid : String) : Int :=
  (s.user_count cid).getD 0

/-- One invocation of a modelled `ConnectionManager` operation. -/
inductive Op where
  | connect (ws : Nat) (cid : String)
  | disconnect (ws : Nat) (cid : String)
  | broadcast (cid : String) (exclude : Option Nat) (failing : List Nat)
  | send_to_all (cid : String) (failing : List Nat)

/-- Apply one operation. -/
def step (s : ManagerState) : Op → ManagerState
  | .connect ws cid => connect ws cid s
  | .disconnect ws cid => disconnect ws cid s
  | .broadcast cid ex failing => broadcast cid ex failing s
  | .send_to_all cid failing => send_to_all cid failing s

/-- The state of a freshly constructed `ConnectionManager`: both dicts empty. -/
def initState : ManagerState :=
  { active_connections := fun _ => none, user_count := fun _ => none }

/-- Run a sequence of operations from the initial state. -/
def run (ops : List Op) : ManagerState :=
  ops.foldl step initState

/-- Per-conversation consistency of the two dicts: `user_count` holds a key
exactly when `active_connections` does, and the held count is the length of
the corresponding connection list. -/
def CountsMatch (s : ManagerState) (cid : String) : Prop :=
  s.user_count cid
    = (s.active_connections cid).map (fun conns => (conns.length : Int))

end CM

/-! Concrete states used by the scenario theorems and counterexamples. -/

/-- A two-message conversation with only the default main leaf, as the
fixture of `test_get_messages_with_invalid_leaf` builds it. -/
def exMainLeaf : LeafRow :=
  { id := "leaf-11111111", conversation_id := "c1", name := "main",
    branch_point_message_id := none, message_versions := [], is_active := true }

/-- First canonical message of the example conversation. -/
def exM1 : MessageRow :=
  { id := "m1", conversation_id := "c1", author_id := "user-1",
    content := "Hello AI", created_in_leaf_id := some "leaf-11111111" }

/-- Second canonical message of the example conversation. -/
def exM2 : MessageRow :=
  { id := "m2", conversation_id := "c1", author_id := "ai-1",
    content := "Hi! How can I help?", created_in_leaf_id := some "leaf-11111111" }

/-- Third canonical message of the example conversation. -/
def exM3 : MessageRow :=
  { id := "m3", conversation_id := "c1", author_id := "user-1",
    content := "Tell me about Python", created_in_leaf_id := some "leaf-11111111" }

/-- The example conversation "c1" with messages m1, m2. -/
def c2State : DBState :=
  { conversations := [{ id := "c1", title := "Test Chat" }],
    messages := [exM1, exM2],
    leaves := [exMainLeaf],
    versions := [] }

/-- A second leaf of "c1" that one stored version belongs to. -/
def c5Leaf : LeafRow :=
  { id := "leaf-b", conversation_id := "c1", name := "branch1",
    branch_point_message_id := some "m1",
    message_versions := [("m1", 0)], is_active := false }

/-- A stored version whose `leaf_id` references `c5Leaf`. -/
def c5Ver : VersionRow :=
  { message_id := "m1", content := "edited", author_id := "user-1",
    leaf_id := "leaf-b", version_number := 0 }

/-- The example conversation with the extra leaf and its version. -/
def c5State : DBState :=
  { conversations := [{ id := "c1", title := "Test Chat" }],
    messages := [exM1, exM2],
    leaves := [exMainLeaf, c5Leaf],
    versions := [c5Ver] }

/-- A message created while the non-main leaf "leaf-b" was active. -/
def c3M2 : MessageRow :=
  { id := "m2", conversation_id := "c1", author_id := "ai-1",
    content := "Hi! How can I help?", created_in_leaf_id := some "leaf-b" }

/-- The example conversation where m2 was created in leaf "leaf-b". -/
def c3State : DBState :=
  { conversations := [{ id := "c1", title := "Test Chat" }],
    messages := [exM1, c3M2],
    leaves := [exMainLeaf, c5Leaf],
    versions := [] }

/-- A leaf that is active and is not named "main". -/
def c9Alt : LeafRow :=
  { id := "leaf-a", conversation_id := "c1", name := "alt",
    branch_point_message_id := some "m1",
    message_versions := [("m1", 0)], is_active := true }

/-- The main leaf of the C9 state, currently inactive. -/
def c9Main : LeafRow :=
  { id := "leaf-m", conversation_id := "c1", name := "main",
    branch_point_message_id := none, message_versions := [], is_active := false }

/-- A stored version of m1 living on leaf "leaf-a". -/
def c9Ver : VersionRow :=
  { message_id := "m1", content := "edited greeting", author_id := "user-1",
    leaf_id := "leaf-a", version_number := 0 }

/-- Conversation whose active leaf is "leaf-a" and whose message m1 has one
stored version, so the merged version list has length 2. -/
def c9State : DBState :=
  { conversations := [{ id := "c1", title := "Test Chat" }],
    messages := [{ id := "m1", conversation_id := "c1", author_id := "user-1",
                   content := "Hello AI", created_in_leaf_id := some "leaf-m" }],
    leaves := [c9Main, c9Alt],
    versions := [c9Ver] }

/-- The three-message conversation of the C1 scenario. -/
def c1State : DBState :=
  { conversations := [{ id := "c1", title := "Test Conversation" }],
    messages := [exM1, exM2, exM3],
    leaves := [exMainLeaf],
    versions := [] }

/-- C2 evaluation: the conversation has two canonical messages, yet listing
its messages for the unknown leaf id "non-existent-leaf" yields the empty
list, not the canonical sequence. -/
theorem get_messages_unknown_leaf_empty :
    (convMessages c2State "c1").length = 2
    ∧ get_messages c2State "c1" (some "non-existent-leaf") = []
    ∧ c2State.leaves.find? (fun l => l.id == "non-existent-leaf") = none := by
  decide

/-- C5 evaluation: deleting leaf "leaf-b" reports success and removes the
leaf row, but the stored `MessageVersion` whose `leaf_id` is "leaf-b"
survives in the version table. -/
theorem delete_leaf_keeps_versions :
    leaf_delete c5State "leaf-b"
      = ({ c5State with leaves := [exMainLeaf] }, true)
    ∧ (leaf_delete c5State "leaf-b").1.versions = [c5Ver]
    ∧ c5Ver.leaf_id = "leaf-b" := by
  decide

/-- C3 counterexample: message m2 is canonical in conversation c1 but was
created in leaf "leaf-b", so resolving the main leaf's view omits it — the
view is not the unfiltered canonical sequence. -/
theorem main_view_omits_other_leaf_message :
    c3M2 ∈ c3State.messages
    ∧ c3M2.conversation_id = "c1"
    ∧ exMainLeaf.name = "main"
    ∧ (get_messages c3State "c1" (some exMainLeaf.id)).all
        (fun d => !(d.id == c3M2.id)) = true
    ∧ (convMessages c3State "c1").length = 2
    ∧ (get_messages c3State "c1" (some exMainLeaf.id)).length = 1 := by
  decide

/-- C6 counterexample: in `c2State` no message has id "missing-msg";
creating leaf "leaf-new" from it with new content succeeds but appends no
`MessageVersion` at all (in particular none with author "unknown") and
leaves the new leaf's `message_versions` map empty. -/
theorem create_leaf_missing_message_no_version :
    c2State.messages.find? (fun m => m.id == "missing-msg") = none
    ∧ (leaf_create c2State "c1" "branch" (some "missing-msg")
        (some "New content") "leaf-new").1.versions = []
    ∧ (leaf_create c2State "c1" "branch" (some "missing-msg")
        (some "New content") "leaf-new").2.message_versions = [] := by
  decide

/-- C6 amended: when the branch-point message id names no existing message,
`LeafRepository.create` still succeeds and creates the leaf row with
`branch_point_message_id` set, but it appends no `MessageVersion` and the
new leaf's `message_versions` map stays empty. -/
theorem create_leaf_missing_message_skips_version
    (s : DBState) (C name bmid nc L_id : String)
    (hfind : s.messages.find? (fun m => m.id == bmid) = none) :
    leaf_create s C name (some bmid) (some nc) L_id
      = ({ s with leaves := s.leaves ++
            [{ id := L_id, conversation_id := C, name := name,
               branch_point_message_id := some bmid,
               message_versions := [], is_active := false }] },
         { id := L_id, conversation_id := C, name := name,
           branch_point_message_id := some bmid,
           message_versions := [], is_active := false }) := by
  unfold leaf_create
  by_cases hb : bmid == ""
  · simp [hb]
  · by_cases hn : nc == ""
    · simp [hb, hn]
    · simp [hb, hn, hfind]

/-- C6 amended, witness: the amended statement evaluated on `c2State` with
the missing message id "missing-msg". -/
theorem create_leaf_missing_message_skips_version_witness :
    leaf_create c2State "c1" "branch" (some "missing-msg") (some "New content") "leaf-new"
      = ({ c2State with leaves := c2State.leaves ++
            [{ id := "leaf-new", conversation_id := "c1", name := "branch",
               branch_point_message_id := some "missing-msg",
               message_versions := [], is_active := false }] },
         { id := "leaf-new", conversation_id := "c1", name := "branch",
           branch_point_message_id := some "missing-msg",
           message_versions := [], is_active := false }) :=
  create_leaf_missing_message_skips_version c2State "c1" "branch" "missing-msg"
    "New content" "leaf-new" (by decide)

/-- C9 counterexample: the merged version list of m1 in `c9State` has length
2, and `navigate_version` with index -2 is accepted: it selects the
synthetic original (Python negative indexing) and returns its content, but
the active leaf does not switch to that version's leaf — the synthetic
version's `leaf_id` is the literal string "main", which is no leaf's id, so
`set_active` finds nothing and the active leaf stays "leaf-a". -/
theorem navigate_negative_full_length_no_switch :
    (get_message_versions c9State "m1").length = 2
    ∧ ep_navigate_version c9State "c1" "m1" (-2)
        = .ok (c9State, -2, "Hello AI")
    ∧ get_active (navigateState c9State "c1" "m1" (-2)) "c1" = some c9Alt
    ∧ c9Alt.name = "alt" := by
  decide

/-- C7: for an existing conversation and message, `navigate_version` with a
version index at least the merged version list's length fails with the 400
error "Version index out of range", and the database state — in particular
the conversation's active leaf — is unchanged. -/
theorem navigate_version_out_of_range
    (s : DBState) (C M : String) (vi : Int)
    (hconv : hasConversation s C = true)
    (hmem : messageInConversation s C M = true)
    (hrange : ((get_message_versions s M).length : Int) ≤ vi) :
    ep_navigate_version s C M vi = .error (.badRequest "Version index out of range")
    ∧ navigateState s C M vi = s := by
  have h1 : ep_navigate_version s C M vi
      = .error (.badRequest "Version index out of range") := by
    unfold ep_navigate_version ep_get_message_versions
    simp [hconv, hmem, hrange]
  refine ⟨h1, ?_⟩
  unfold navigateState
  rw [h1]

/-- C7 witness: in `c9State` the merged list for m1 has length 2, and
navigating to index 2 yields the out-of-range error with the state intact. -/
theorem navigate_version_out_of_range_witness :
    ep_navigate_version c9State "c1" "m1" 2
      = .error (.badRequest "Version index out of range")
    ∧ navigateState c9State "c1" "m1" 2 = c9State :=
  navigate_version_out_of_range c9State "c1" "m1" 2 (by decide) (by decide) (by decide)

/-- C8: for an existing conversation, `delete_leaf` aimed at a leaf whose
name is "main" fails with the 400 error "Cannot delete main branch" and
leaves the database state unchanged. -/
theorem delete_main_leaf_fails
    (s : DBState) (C lid : String) (L : LeafRow)
    (hconv : hasConversation s C = true)
    (hfind : (leafGetAll s C).find? (fun l => l.id == lid) = some L)
    (hmain : L.name = "main") :
    ep_delete_leaf s C lid = .error (.badRequest "Cannot delete main branch")
    ∧ deleteLeafState s C lid = s := by
  have h1 : ep_delete_leaf s C lid = .error (.badRequest "Cannot delete main branch") := by
    unfold ep_delete_leaf
    simp [hconv, hfind, hmain]
  refine ⟨h1, ?_⟩
  unfold deleteLeafState
  rw [h1]

/-- C8 witness: deleting the main leaf of `c2State` fails with the 400
error and changes nothing. -/
theorem delete_main_leaf_fails_witness :
    ep_delete_leaf c2State "c1" "leaf-11111111"
      = .error (.badRequest "Cannot delete main branch")
    ∧ deleteLeafState c2State "c1" "leaf-11111111" = c2State :=
  delete_main_leaf_fails c2State "c1" "leaf-11111111" exMainLeaf
    (by decide) (by decide) (by decide)

/-- With no branch point, the message loop of `get_messages` keeps exactly
the messages whose `created_in_leaf_id` is falsy or equal to the requested
leaf, independently of the running index. -/
theorem gmLoop_nobranch (s : DBState) (db_leaf : LeafRow) (lid : String)
    (i : Nat) (ms : List MessageRow) :
    gmLoop s db_leaf lid none i ms
      = (ms.filter (fun m =>
          !(truthyOpt m.created_in_leaf_id) || m.created_in_leaf_id == some lid)).map
          (mkLeafDict s db_leaf lid) := by
  induction ms generalizing i with
  | nil => rfl
  | cons m ms ih =>
    by_cases ht : truthyOpt m.created_in_leaf_id = true <;>
    by_cases he : (m.created_in_leaf_id == some lid) = true <;>
      simp [gmLoop, skipMsg, List.filter_cons, ht, he, ih]

/-- C3 amended: resolving the view of a leaf with no branch point and an
empty `message_versions` map — the invariant shape of the "main" leaf —
returns, in creation order, exactly the canonical messages whose
`created_in_leaf_id` is null (or empty) or equal to that leaf's id, each
with its canonical content; messages created in other leaves are excluded. -/
theorem main_leaf_view
    (s : DBState) (C lid : String) (L : LeafRow)
    (hlid : lid ≠ "")
    (hfind : s.leaves.find? (fun l => l.id == lid) = some L)
    (hbp : L.branch_point_message_id = none)
    (hmv : L.message_versions = []) :
    get_messages s C (some lid)
      = ((convMessages s C).filter (fun m =>
          !(truthyOpt m.created_in_leaf_id) || m.created_in_leaf_id == some lid)).map
          (fun m => { id := m.id, conversation_id := m.conversation_id,
                      author_id := m.author_id, content := m.content,
                      leaf_id := some lid }) := by
  have hlid2 : (lid == "") = false := by
    simp only [beq_eq_false_iff_ne, ne_eq]
    exact hlid
  have hdict : mkLeafDict s L lid = fun m =>
      { id := m.id, conversation_id := m.conversation_id,
        author_id := m.author_id, content := m.content,
        leaf_id := some lid } := by
    funext m
    simp [mkLeafDict, overrideContent, hmv]
  unfold get_messages
  simp only [hlid2, Bool.false_eq_true, if_false, hfind, hbp]
  rw [gmLoop_nobranch, hdict]

/-- C3 amended, witness: the main leaf of `c3State` has no branch point and
an empty override map, and its view keeps m1 and drops the leaf-b message. -/
theorem main_leaf_view_witness :
    get_messages c3State "c1" (some "leaf-11111111")
      = ((convMessages c3State "c1").filter (fun m =>
          !(truthyOpt m.created_in_leaf_id)
            || m.created_in_leaf_id == some "leaf-11111111")).map
          (fun m => { id := m.id, conversation_id := m.conversation_id,
                      author_id := m.author_id, content := m.content,
                      leaf_id := some "leaf-11111111" }) :=
  main_leaf_view c3State "c1" "leaf-11111111" exMainLeaf
    (by decide) (by decide) (by decide) (by decide)

/-- A stored version appended with the next sequential number is found by a
lookup for that number, because every earlier version of the message has a
strictly smaller number. -/
theorem find?_version_append (vs : List VersionRow) (mid : String) (n : Nat)
    (newv : VersionRow)
    (hbound : ∀ v ∈ vs, v.message_id = mid → v.version_number < n)
    (hm : newv.message_id = mid) (hvn : newv.version_number = n) :
    (vs ++ [newv]).find? (fun v => v.message_id == mid && v.version_number == n)
      = some newv := by
  rw [List.find?_append]
  have hnone : vs.find? (fun v => v.message_id == mid && v.version_number == n) = none := by
    rw [List.find?_eq_none]
    intro v hv
    simp only [Bool.and_eq_true, beq_iff_eq, not_and]
    intro h1 h2
    exact absurd h2 (Nat.ne_of_lt (hbound v hv h1))
  rw [hnone, Option.none_or, List.find?_cons_of_pos]
  simp [hm, hvn]

/-- Inserting an element below every element of a list puts it at the head. -/
theorem insertByVN_le (v : VersionRow) (l : List VersionRow)
    (h : ∀ w ∈ l, v.version_number ≤ w.version_number) :
    insertByVN v l = v :: l := by
  cases l with
  | nil => rfl
  | cons w ws =>
    rw [insertByVN, if_pos (h w (List.mem_cons_self w ws))]

/-- Sorting a list already ordered by version number leaves it unchanged. -/
theorem sortByVN_sorted_eq (l : List VersionRow)
    (h : l.Pairwise (fun a b => a.version_number ≤ b.version_number)) :
    sortByVN l = l := by
  induction l with
  | nil => rfl
  | cons v vs ih =>
    rw [sortByVN, ih (List.Pairwise.of_cons h), insertByVN_le]
    exact fun w hw => (List.pairwise_cons.mp h).1 w hw

/-- A version list whose numbers read 0, 1, ..., n-1 is ordered by number. -/
theorem pairwise_vn_of_map_range (l : List VersionRow) (n : Nat)
    (h : l.map (fun v => v.version_number) = List.range n) :
    l.Pairwise (fun a b => a.version_number ≤ b.version_number) := by
  have h2 : (l.map (fun v => v.version_number)).Pairwise (· < ·) := by
    rw [h]
    exact List.pairwise_lt_range n
  rw [List.pairwise_map] at h2
  exact h2.imp (fun hab => Nat.le_of_lt hab)

/-- A version list whose numbers read 0, 1, ..., n-1 has all numbers below n. -/
theorem vn_lt_of_map_range (l : List VersionRow) (n : Nat)
    (h : l.map (fun v => v.version_number) = List.range n) :
    ∀ v ∈ l, v.version_number < n := by
  intro v hv
  have hmem : v.version_number ∈ List.range n := by
    rw [← h]
    exact List.mem_map_of_mem _ hv
  exact List.mem_range.mp hmem

/-- After `set_active` flips the flags of a conversation's leaves, the first
active leaf of that conversation has the requested id, provided some leaf of
the conversation carries that id. -/
theorem find_active_map (C lid : String) (ls : List LeafRow)
    (hex : ∃ l ∈ ls, l.conversation_id = C ∧ l.id = lid) :
    ∃ al, (ls.map (fun l =>
        if l.conversation_id == C then { l with is_active := l.id == lid } else l)).find?
        (fun l => l.conversation_id == C && l.is_active) = some al ∧ al.id = lid := by
  induction ls with
  | nil =>
    obtain ⟨l, hl, _⟩ := hex
    cases hl
  | cons a ls ih =>
    obtain ⟨l, hl, hc, hid⟩ := hex
    rw [List.map_cons]
    by_cases hac : a.conversation_id = C
    · by_cases haid : a.id = lid
      · refine ⟨{ a with is_active := a.id == lid }, ?_, haid⟩
        rw [List.find?_cons_of_pos _ (by simp [hac, haid])]
        simp [hac]
      · have hl2 : l ∈ ls := by
          rcases List.mem_cons.mp hl with h | h
          · exact absurd (h ▸ hid) haid
          · exact h
        obtain ⟨al, hfind, hal⟩ := ih ⟨l, hl2, hc, hid⟩
        refine ⟨al, ?_, hal⟩
        rw [List.find?_cons_of_neg _ (by simp [hac, haid]), hfind]
    · have hl2 : l ∈ ls := by
        rcases List.mem_cons.mp hl with h | h
        · exact absurd (h ▸ hc) hac
        · exact h
      obtain ⟨al, hfind, hal⟩ := ih ⟨l, hl2, hc, hid⟩
      refine ⟨al, ?_, hal⟩
      rw [List.find?_cons_of_neg _ (by simp [hac]), hfind]

/-- `set_active` on a leaf id carried by some leaf of the conversation makes
that leaf the conversation's active leaf. -/
theorem get_active_set_active (s : DBState) (C lid : String)
    (hex : ∃ l ∈ s.leaves, l.conversation_id = C ∧ l.id = lid) :
    ∃ al, get_active ((set_active s C lid).1) C = some al ∧ al.id = lid := by
  have hfound : s.leaves.any (fun l => l.conversation_id == C && l.id == lid) = true := by
    rw [List.any_eq_true]
    obtain ⟨l, hl, hc, hid⟩ := hex
    exact ⟨l, hl, by simp [hc, hid]⟩
  unfold set_active get_active
  simp only [hfound, if_true]
  exact find_active_map C lid s.leaves hex

/-- `LeafRepository.create` with a truthy branch message id and new content,
when the branch-point message exists: the new leaf and the seeded version
are appended, the version's number being the current count of stored
versions for that message. -/
theorem leaf_create_found (s : DBState) (C nm bmid nc L_id : String) (m0 : MessageRow)
    (hb : bmid ≠ "") (hn : nc ≠ "")
    (hfind : s.messages.find? (fun m => m.id == bmid) = some m0) :
    leaf_create s C nm (some bmid) (some nc) L_id
      = ({ s with
            leaves := s.leaves ++
              [{ id := L_id, conversation_id := C, name := nm,
                 branch_point_message_id := some bmid,
                 message_versions := [(bmid,
                   (s.versions.filter (fun v => v.message_id == bmid)).length)],
                 is_active := false }],
            versions := s.versions ++
              [{ message_id := bmid, content := nc, author_id := m0.author_id,
                 leaf_id := L_id,
                 version_number :=
                   (s.versions.filter (fun v => v.message_id == bmid)).length }] },
         { id := L_id, conversation_id := C, name := nm,
           branch_point_message_id := some bmid,
           message_versions := [(bmid,
             (s.versions.filter (fun v => v.message_id == bmid)).length)],
           is_active := false }) := by
  have hb2 : (bmid == "") = false := by
    simp only [beq_eq_false_iff_ne, ne_eq]
    exact hb
  have hn2 : (nc == "") = false := by
    simp only [beq_eq_false_iff_ne, ne_eq]
    exact hn
  unfold leaf_create
  simp [hb2, hn2, hfind]

/-- C4 round trip: branching leaf `L_id` from message `m0` with new content
`X` seeds a stored version whose merged-list index is `n + 1` (`n` stored
versions exist before the call, numbered 0..n-1); navigating to that index
returns content `X` and switches the conversation's active leaf to the new
leaf. -/
theorem create_leaf_navigate_roundtrip
    (s : DBState) (C nm X L_id : String) (m0 : MessageRow) (n : Nat)
    (hconv : hasConversation s C = true)
    (hfind : s.messages.find? (fun m => m.id == m0.id) = some m0)
    (hmc : m0.conversation_id = C)
    (hmid : m0.id ≠ "")
    (hX : X ≠ "")
    (hLid : L_id ≠ "")
    (hvers : (s.versions.filter (fun v => v.message_id == m0.id)).map
        (fun v => v.version_number) = List.range n) :
    ∃ s2,
      ep_navigate_version (leaf_create s C nm (some m0.id) (some X) L_id).1 C m0.id
          ((n + 1 : Nat) : Int) = .ok (s2, ((n + 1 : Nat) : Int), X)
      ∧ ∃ al, get_active s2 C = some al ∧ al.id = L_id := by
  have hlen : (s.versions.filter (fun v => v.message_id == m0.id)).length = n := by
    have h := congrArg List.length hvers
    simpa using h
  have hs1 : (leaf_create s C nm (some m0.id) (some X) L_id).1
      = { s with
          leaves := s.leaves ++
            [{ id := L_id, conversation_id := C, name := nm,
               branch_point_message_id := some m0.id,
               message_versions := [(m0.id, n)], is_active := false }],
          versions := s.versions ++
            [{ message_id := m0.id, content := X, author_id := m0.author_id,
               leaf_id := L_id, version_number := n }] } := by
    rw [leaf_create_found s C nm m0.id X L_id m0 hmid hX hfind, hlen]
  rw [hs1]
  set newL : LeafRow :=
    { id := L_id, conversation_id := C, name := nm,
      branch_point_message_id := some m0.id,
      message_versions := [(m0.id, n)], is_active := false } with hnewL
  set newV : VersionRow :=
    { message_id := m0.id, content := X, author_id := m0.author_id,
      leaf_id := L_id, version_number := n } with hnewV
  set s1 : DBState :=
    { s with leaves := s.leaves ++ [newL], versions := s.versions ++ [newV] } with hs1d
  have hconv1 : hasConversation s1 C = true := hconv
  have hmem1 : messageInConversation s1 C m0.id = true := by
    unfold messageInConversation
    rw [List.any_eq_true]
    exact ⟨m0, List.mem_of_find?_eq_some hfind, by simp [hmc]⟩
  have hgmv : get_message_versions s1 m0.id
      = { content := m0.content, version_number := 0, leaf_id := "main",
          author_id := none }
        :: ((s.versions.filter (fun v => v.message_id == m0.id)) ++ [newV]).map
            (fun v => ({ content := v.content, version_number := v.version_number + 1,
                         leaf_id := v.leaf_id, author_id := some v.author_id } : VersionDict)) := by
    unfold get_message_versions versionsFor
    have hm1 : s1.messages.find? (fun m => m.id == m0.id) = some m0 := hfind
    rw [hm1]
    have hfa : s1.versions.filter (fun v => v.message_id == m0.id)
        = (s.versions.filter (fun v => v.message_id == m0.id)) ++ [newV] := by
      show (s.versions ++ [newV]).filter (fun v => v.message_id == m0.id) = _
      rw [List.filter_append]
      simp [hnewV]
    rw [hfa, sortByVN_sorted_eq]
    rw [List.pairwise_append]
    refine ⟨pairwise_vn_of_map_range _ n hvers, List.pairwise_singleton _ _, ?_⟩
    intro a ha b hb
    have hbn : b = newV := by simpa using hb
    have := vn_lt_of_map_range _ n hvers a ha
    rw [hbn]
    exact Nat.le_of_lt (by simpa [hnewV] using this)
  have hepgmv : ep_get_message_versions s1 C m0.id
      = .ok (get_message_versions s1 m0.id,
          findCurrentVersion
            (match get_active s1 C with | some l => l.id | none => "main") 0
            (get_message_versions s1 m0.id)) := by
    unfold ep_get_message_versions
    simp only [hconv1, hmem1, Bool.not_true, Bool.false_eq_true, if_false]
  refine ⟨(set_active s1 C L_id).1, ?_, ?_⟩
  · unfold ep_navigate_version
    rw [hepgmv]
    dsimp only
    have hlength : (get_message_versions s1 m0.id).length = n + 2 := by
      rw [hgmv]
      simp [hlen]
    have hnotle : ¬ ((get_message_versions s1 m0.id).length : Int)
        ≤ ((n + 1 : Nat) : Int) := by
      rw [hlength]
      push_cast
      omega
    rw [if_neg hnotle]
    have hsel : pyIndex (get_message_versions s1 m0.id) ((n + 1 : Nat) : Int)
        = some { content := X, version_number := n + 1, leaf_id := L_id,
                 author_id := some m0.author_id } := by
      have hidx : ((s.versions.filter (fun v => v.message_id == m0.id)) ++ [newV])[n]?
          = some newV := by
        rw [← hlen]
        exact List.getElem?_concat_length _ _
      unfold pyIndex
      rw [if_pos (Int.natCast_nonneg (n + 1))]
      rw [Int.toNat_ofNat, hgmv]
      rw [List.getElem?_cons_succ, List.getElem?_map, hidx]
      simp [hnewV]
    rw [hsel]
    have hLid2 : (L_id == "") = false := by
      simp only [beq_eq_false_iff_ne, ne_eq]
      exact hLid
    simp only [hLid2, Bool.false_eq_true, if_false]
  · exact get_active_set_active s1 C L_id
      ⟨newL, by simp, by simp [hnewL]⟩

/-- C4 witness: branching "leaf-n" off message m1 of `c2State` (which has no
stored versions, so n = 0) with content "Hey there AI!", then navigating m1
to merged index 1, returns that content and activates the new leaf. -/
theorem create_leaf_navigate_roundtrip_witness :
    ∃ s2,
      ep_navigate_version
          (leaf_create c2State "c1" "edited-greeting" (some exM1.id)
            (some "Hey there AI!") "leaf-n").1 "c1" exM1.id ((0 + 1 : Nat) : Int)
        = .ok (s2, ((0 + 1 : Nat) : Int), "Hey there AI!")
      ∧ ∃ al, get_active s2 "c1" = some al ∧ al.id = "leaf-n" :=
  create_leaf_navigate_roundtrip c2State "c1" "edited-greeting" "Hey there AI!"
    "leaf-n" exM1 0 (by decide) (by decide) (by decide) (by decide) (by decide)
    (by decide) (by decide)

/-- C9 amended: for an existing conversation and message, a negative
`version_index` within the merged list's length is not rejected — Python
indexing selects the entry at position length + version_index, whose content
is returned; and when some leaf of the conversation carries the selected
version's (non-empty) `leaf_id`, the active leaf switches to it.  (At
version_index = -length the synthetic original is selected, whose `leaf_id`
is the literal "main" — no leaf's id — so the switch silently does nothing;
see the counterexample.) -/
theorem navigate_negative_index
    (s : DBState) (C M : String) (vi : Int) (sel : VersionDict)
    (hconv : hasConversation s C = true)
    (hmem : messageInConversation s C M = true)
    (hneg : vi < 0)
    (hsel : pyIndex (get_message_versions s M) vi = some sel)
    (hlid : sel.leaf_id ≠ "")
    (hleaf : ∃ l ∈ s.leaves, l.conversation_id = C ∧ l.id = sel.leaf_id) :
    ep_navigate_version s C M vi
      = .ok ((set_active s C sel.leaf_id).1, vi, sel.content)
    ∧ ∃ al, get_active ((set_active s C sel.leaf_id).1) C = some al
        ∧ al.id = sel.leaf_id := by
  constructor
  · have hep : ep_get_message_versions s C M
        = .ok (get_message_versions s M,
            findCurrentVersion
              (match get_active s C with | some l => l.id | none => "main") 0
              (get_message_versions s M)) := by
      unfold ep_get_message_versions
      simp only [hconv, hmem, Bool.not_true, Bool.false_eq_true, if_false]
    unfold ep_navigate_version
    rw [hep]
    dsimp only
    have hnotle : ¬ ((get_message_versions s M).length : Int) ≤ vi := by
      have h0 : 0 ≤ ((get_message_versions s M).length : Int) := Int.natCast_nonneg _
      omega
    rw [if_neg hnotle, hsel]
    have hlid2 : (sel.leaf_id == "") = false := by
      simp only [beq_eq_false_iff_ne, ne_eq]
      exact hlid
    simp only [hlid2, Bool.false_eq_true, if_false]
  · exact get_active_set_active s C sel.leaf_id hleaf

/-- C9 amended, witness: in `c9State` the merged list of m1 has length 2;
navigating to index -1 selects the stored version on leaf "leaf-a", returns
its content, and the active leaf becomes "leaf-a". -/
theorem navigate_negative_index_witness :
    ep_navigate_version c9State "c1" "m1" (-1)
      = .ok ((set_active c9State "c1" "leaf-a").1, -1, "edited greeting")
    ∧ ∃ al, get_active ((set_active c9State "c1" "leaf-a").1) "c1" = some al
        ∧ al.id = "leaf-a" :=
  navigate_negative_index c9State "c1" "m1" (-1)
    { content := "edited greeting", version_number := 1,
      leaf_id := "leaf-a", author_id := some "user-1" }
    (by decide) (by decide) (by decide) (by decide) (by decide)
    ⟨c9Alt, by decide, by decide, by decide⟩

/-- C1: for a conversation whose canonical sequence is [M1, M2, M3], after
creating a leaf branching from M2 with new content "Greetings!", resolving
that leaf's view returns exactly [M1 with canonical content, M2 with content
"Greetings!"]: indices at or before the branch point are included (M2's
content overridden through the leaf's `message_versions` map), and M3 is
excluded because it sits after the branch point and was not created in the
new leaf. -/
theorem branch_leaf_scenario
    (s : DBState) (C nm L_id : String) (M1 M2 M3 m0 : MessageRow) (n : Nat)
    (hmsgs : convMessages s C = [M1, M2, M3])
    (h12 : M1.id ≠ M2.id)
    (hbmid : M2.id ≠ "")
    (hLid : L_id ≠ "")
    (hfresh : ∀ l ∈ s.leaves, l.id ≠ L_id)
    (hfind : s.messages.find? (fun m => m.id == M2.id) = some m0)
    (hvers : (s.versions.filter (fun v => v.message_id == M2.id)).map
        (fun v => v.version_number) = List.range n)
    (hM3 : M3.created_in_leaf_id ≠ some L_id) :
    get_messages (leaf_create s C nm (some M2.id) (some "Greetings!") L_id).1 C
        (some L_id)
      = [{ id := M1.id, conversation_id := M1.conversation_id,
           author_id := M1.author_id, content := M1.content, leaf_id := some L_id },
         { id := M2.id, conversation_id := M2.conversation_id,
           author_id := M2.author_id, content := "Greetings!",
           leaf_id := some L_id }] := by
  have hlen : (s.versions.filter (fun v => v.message_id == M2.id)).length = n := by
    have h := congrArg List.length hvers
    simpa using h
  have hs1 : (leaf_create s C nm (some M2.id) (some "Greetings!") L_id).1
      = { s with
          leaves := s.leaves ++
            [{ id := L_id, conversation_id := C, name := nm,
               branch_point_message_id := some M2.id,
               message_versions := [(M2.id, n)], is_active := false }],
          versions := s.versions ++
            [{ message_id := M2.id, content := "Greetings!",
               author_id := m0.author_id, leaf_id := L_id,
               version_number := n }] } := by
    rw [leaf_create_found s C nm M2.id "Greetings!" L_id m0 hbmid (by decide) hfind,
      hlen]
  rw [hs1]
  set newL : LeafRow :=
    { id := L_id, conversation_id := C, name := nm,
      branch_point_message_id := some M2.id,
      message_versions := [(M2.id, n)], is_active := false } with hnewL
  set newV : VersionRow :=
    { message_id := M2.id, content := "Greetings!", author_id := m0.author_id,
      leaf_id := L_id, version_number := n } with hnewV
  set s1 : DBState :=
    { s with leaves := s.leaves ++ [newL], versions := s.versions ++ [newV] } with hs1d
  have hmsgs1 : convMessages s1 C = [M1, M2, M3] := hmsgs
  have hfindleaf : s1.leaves.find? (fun l => l.id == L_id) = some newL := by
    show (s.leaves ++ [newL]).find? (fun l => l.id == L_id) = some newL
    rw [List.find?_append]
    have h1 : s.leaves.find? (fun l => l.id == L_id) = none := by
      rw [List.find?_eq_none]
      intro l hl
      simp only [beq_iff_eq]
      exact hfresh l hl
    rw [h1, Option.none_or, List.find?_cons_of_pos _ (by simp [hnewL])]
  have hbp : findBranchIndex M2.id 0 [M1, M2, M3] = some 1 := by
    unfold findBranchIndex
    rw [if_neg (by simp only [beq_iff_eq]; exact h12)]
    unfold findBranchIndex
    rw [if_pos (by simp)]
  have hlook : lookupVersion s1 M2.id n = some newV := by
    show (s.versions ++ [newV]).find?
        (fun v => v.message_id == M2.id && v.version_number == n) = some newV
    refine find?_version_append s.versions M2.id n newV ?_ rfl rfl
    intro v hv hvm
    refine vn_lt_of_map_range _ n hvers v ?_
    rw [List.mem_filter]
    exact ⟨hv, by simp [hvm]⟩
  have hov1 : overrideContent s1 newL M1 = M1.content := by
    unfold overrideContent
    rw [if_neg (by simp [hnewL])]
    have hal : assocLookup newL.message_versions M1.id = none := by
      show assocLookup [(M2.id, n)] M1.id = none
      unfold assocLookup
      rw [if_neg (by simp only [beq_iff_eq]; exact Ne.symm h12)]
      rfl
    rw [hal]
  have hov2 : overrideContent s1 newL M2 = "Greetings!" := by
    unfold overrideContent
    rw [if_neg (by simp [hnewL])]
    have hal : assocLookup newL.message_versions M2.id = some n := by
      show assocLookup [(M2.id, n)] M2.id = some n
      unfold assocLookup
      rw [if_pos (by simp)]
    rw [hal]
    dsimp only
    rw [hlook]
  have hLid2 : (L_id == "") = false := by
    simp only [beq_eq_false_iff_ne, ne_eq]
    exact hLid
  have hbmid2 : (M2.id == "") = false := by
    simp only [beq_eq_false_iff_ne, ne_eq]
    exact hbmid
  have hM3b : (M3.created_in_leaf_id == some L_id) = false := by
    simp only [beq_eq_false_iff_ne, ne_eq]
    exact hM3
  unfold get_messages
  simp only [hmsgs1, hLid2, Bool.false_eq_true, if_false, hfindleaf]
  simp only [hbmid2, Bool.false_eq_true, if_false, hbp]
  simp [gmLoop, skipMsg, hM3b, mkLeafDict, hov1, hov2]

/-- C1 witness: the scenario run on `c1State` — branch "leaf-alt" from m2
with "Greetings!", resolve the leaf view, obtain [m1 unchanged, m2 with
"Greetings!"] and nothing else. -/
theorem branch_leaf_scenario_witness :
    get_messages (leaf_create c1State "c1" "alt" (some exM2.id)
        (some "Greetings!") "leaf-alt").1 "c1" (some "leaf-alt")
      = [{ id := exM1.id, conversation_id := exM1.conversation_id,
           author_id := exM1.author_id, content := exM1.content,
           leaf_id := some "leaf-alt" },
         { id := exM2.id, conversation_id := exM2.conversation_id,
           author_id := exM2.author_id, content := "Greetings!",
           leaf_id := some "leaf-alt" }] :=
  branch_leaf_scenario c1State "c1" "alt" "leaf-alt" exM1 exM2 exM3 exM2 0
    (by decide) (by decide) (by decide) (by decide) (by decide) (by decide)
    (by decide) (by decide)

namespace CM

/-- `connect` keeps the connection and count dicts consistent. -/
theorem countsMatch_connect (ws : Nat) (cid0 : String) (s : ManagerState)
    (h : ∀ c, CountsMatch s c) : ∀ c, CountsMatch (connect ws cid0 s) c := by
  intro c
  unfold connect
  cases hac : s.active_connections cid0 with
  | none =>
    unfold CountsMatch updateMap
    dsimp only
    by_cases hc : c == cid0
    · simp [hc]
    · simp only [hc, Bool.false_eq_true, if_false]
      exact h c
  | some conns =>
    unfold CountsMatch updateMap
    dsimp only
    by_cases hc : c == cid0
    · have hcnt : s.user_count cid0 = some ((conns.length : Int)) := by
        have h0 := h cid0
        unfold CountsMatch at h0
        rw [hac] at h0
        simpa using h0
      simp only [hc, if_true, hcnt]
      simp [Option.getD]
    · simp only [hc, Bool.false_eq_true, if_false]
      exact h c

/-- `disconnect` keeps the connection and count dicts consistent, including
the cleanup that removes both entries when the list empties, and the
unregistered-websocket case, where Python raises before mutating. -/
theorem countsMatch_disconnect (ws : Nat) (cid0 : String) (s : ManagerState)
    (h : ∀ c, CountsMatch s c) : ∀ c, CountsMatch (disconnect ws cid0 s) c := by
  intro c
  unfold disconnect
  cases hac : s.active_connections cid0 with
  | none => exact h c
  | some conns =>
    by_cases hmem : conns.contains ws
    · have hmem2 : ws ∈ conns := by simpa using hmem
      simp only [hmem, if_true]
      by_cases hemp : (conns.erase ws).isEmpty
      · simp only [hemp, if_true]
        unfold CountsMatch updateMap
        dsimp only
        by_cases hc : c == cid0
        · simp [hc]
        · simp only [hc, Bool.false_eq_true, if_false]
          exact h c
      · simp only [hemp, Bool.false_eq_true, if_false]
        unfold CountsMatch updateMap
        dsimp only
        by_cases hc : c == cid0
        · have hcnt : s.user_count cid0 = some ((conns.length : Int)) := by
            have h0 := h cid0
            unfold CountsMatch at h0
            rw [hac] at h0
            simpa using h0
          have hlen : (conns.erase ws).length = conns.length - 1 :=
            List.length_erase_of_mem hmem2
          have hpos : 0 < conns.length := List.length_pos_of_mem hmem2
          simp only [hc, if_true, hcnt, Option.map_some]
          simp [Option.getD, hlen]
          omega
        · simp only [hc, Bool.false_eq_true, if_false]
          exact h c
    · simp only [hmem, Bool.false_eq_true, if_false]
      exact h c

/-- Folding `disconnect` over a list of websockets preserves consistency. -/
theorem countsMatch_foldl_disconnect (cid0 : String) (ws_list : List Nat)
    (s : ManagerState) (h : ∀ c, CountsMatch s c) :
    ∀ c, CountsMatch (ws_list.foldl (fun st w => disconnect w cid0 st) s) c := by
  induction ws_list generalizing s with
  | nil => exact h
  | cons w ws ih => exact ih _ (countsMatch_disconnect w cid0 s h)

/-- `broadcast` (sends plus failure-driven disconnects) preserves
consistency. -/
theorem countsMatch_broadcast (cid0 : String) (ex : Option Nat)
    (failing : List Nat) (s : ManagerState)
    (h : ∀ c, CountsMatch s c) : ∀ c, CountsMatch (broadcast cid0 ex failing s) c := by
  intro c
  unfold broadcast
  split
  · exact h c
  · exact countsMatch_foldl_disconnect cid0 _ s h c

/-- `send_to_all` preserves consistency. -/
theorem countsMatch_send_to_all (cid0 : String) (failing : List Nat)
    (s : ManagerState) (h : ∀ c, CountsMatch s c) :
    ∀ c, CountsMatch (send_to_all cid0 failing s) c := by
  intro c
  unfold send_to_all
  split
  · exact h c
  · exact countsMatch_foldl_disconnect cid0 _ s h c

/-- Every modelled operation preserves consistency. -/
theorem countsMatch_step (s : ManagerState) (op : Op)
    (h : ∀ c, CountsMatch s c) : ∀ c, CountsMatch (step s op) c := by
  cases op with
  | connect ws cid => exact countsMatch_connect ws cid s h
  | disconnect ws cid => exact countsMatch_disconnect ws cid s h
  | broadcast cid ex failing => exact countsMatch_broadcast cid ex failing s h
  | send_to_all cid failing => exact countsMatch_send_to_all cid failing s h

/-- Consistency holds after any operation sequence from the initial state. -/
theorem countsMatch_run (ops : List Op) : ∀ c, CountsMatch (run ops) c := by
  have haux : ∀ (l : List Op) (s : ManagerState), (∀ c, CountsMatch s c) →
      ∀ c, CountsMatch (l.foldl step s) c := by
    intro l
    induction l with
    | nil => intro s h; exact h
    | cons op l ih => intro s h; exact ih _ (countsMatch_step s op h)
  exact haux ops initState (fun c => rfl)

end CM

/-- C10: after any sequence of connect, disconnect, broadcast and
send_to_all operations on the `ConnectionManager`, for every conversation
id the `user_count` entry equals the length of the `active_connections`
entry, the two dicts hold exactly the same keys, and `get_user_count` is
never negative. -/
theorem connection_manager_invariant (ops : List CM.Op) (cid : String) :
    (CM.run ops).user_count cid
      = ((CM.run ops).active_connections cid).map (fun conns => (conns.length : Int))
    ∧ ((CM.run ops).user_count cid).isSome
        = ((CM.run ops).active_connections cid).isSome
    ∧ 0 ≤ CM.get_user_count (CM.run ops) cid := by
  have h : CM.CountsMatch (CM.run ops) cid := CM.countsMatch_run ops cid
  unfold CM.CountsMatch at h
  refine ⟨h, ?_, ?_⟩
  · rw [h]
    cases (CM.run ops).active_connections cid <;> rfl
  · unfold CM.get_user_count
    rw [h]
    cases (CM.run ops).active_connections cid with
    | none => simp
    | some conns => simp

end LlmUx
